import Mathlib

/-!
Verification of the change-detection and scheduling workflow of the
`tenders_info` repository (`adb-workflow.py`, `adb_scraper.py`).

The embedding is shallow: a pandas DataFrame of scraped rows becomes a
`List Record`; the output directory becomes an association list from file
name to the records stored in that CSV file; an exception raised and caught
by a `try`/`except` block becomes an `Except String` value; the side effects
of one `run_job` call (browser acquisition, notification dispatch, browser
release) become an explicit event trace.
-/

/-- One scraped row.  The source (`_extract_tender_results`,
`_extract_project_results` in `adb_scraper.py`) builds each row as a dict
that always contains a `Title` entry, used as the identity key by
`compare_with_previous`, plus further string fields. -/
structure Record where
  title : String
  fields : List (String × String)
deriving DecidableEq, Repr

/-- The multiset of `Title` values of a snapshot, in source order
(`current_df['Title'].values`). -/
def titles (rs : List Record) : List String :=
  rs.map (fun r => r.title)

/-- Embedding of `compare_with_previous(current_df, previous_file)`
(`adb-workflow.py` lines 110-130).  The `previousFile` argument is the state
of the previous file: `none` when `os.path.exists(previous_file)` is false,
`some (Except.error e)` when an exception is raised inside the `try` block
while reading or processing it (unreadable file, parse failure, missing
`Title` column), and `some (Except.ok prev)` when it parses to rows `prev`.
The source computes `new_ids = current_ids - previous_ids` over the Title
sets and keeps the current rows whose Title lies in `new_ids`; an exception
falls into the `except` clause, which returns an empty DataFrame. -/
def compare_with_previous (current : List Record)
    (previousFile : Option (Except String (List Record))) : List Record :=
  match previousFile with
  | some (Except.ok previous) =>
      current.filter (fun r =>
        (titles current).contains r.title && !((titles previous).contains r.title))
  | some (Except.error _) => []
  | none => current

theorem mem_titles_of_mem {r : Record} {rs : List Record} (h : r ∈ rs) :
    r.title ∈ titles rs := by
  exact List.mem_map_of_mem (fun r => r.title) h

theorem contains_titles_of_mem {r : Record} {rs : List Record} (h : r ∈ rs) :
    (titles rs).contains r.title = true := by
  simpa [List.contains, List.elem_iff] using mem_titles_of_mem h

/-- Claim C1: with an existing, readable previous snapshot, the diff returns
exactly the current records whose Title is absent from the previous
snapshot's Title set, in the source order of `current` (a `filter` of
`current`); in particular this holds whenever the current Title set is a
superset of the previous one. -/
theorem compare_with_previous_diff_by_title (current previous : List Record) :
    compare_with_previous current (some (Except.ok previous)) =
      current.filter (fun r => !((titles previous).contains r.title)) ∧
    ((∀ t, t ∈ titles previous → t ∈ titles current) →
      compare_with_previous current (some (Except.ok previous)) =
        current.filter (fun r => !((titles previous).contains r.title))) := by
  constructor
  · show List.filter _ current = List.filter _ current
    apply List.filter_congr
    intro r hr
    simp only [contains_titles_of_mem hr, Bool.true_and]
  · intro _
    show List.filter _ current = List.filter _ current
    apply List.filter_congr
    intro r hr
    simp only [contains_titles_of_mem hr, Bool.true_and]

/-- Closed witness for C1 at a concrete pair of snapshots whose current
Title set is a superset of the previous one. -/
theorem compare_with_previous_diff_by_title_witness :
    compare_with_previous
        [⟨"X", []⟩, ⟨"Y", []⟩, ⟨"Z", []⟩] (some (Except.ok [⟨"X", []⟩, ⟨"Y", []⟩])) =
      List.filter (fun r => !((titles [⟨"X", []⟩, ⟨"Y", []⟩]).contains r.title))
        [⟨"X", []⟩, ⟨"Y", []⟩, ⟨"Z", []⟩] :=
  ((compare_with_previous_diff_by_title
      [⟨"X", []⟩, ⟨"Y", []⟩, ⟨"Z", []⟩] [⟨"X", []⟩, ⟨"Y", []⟩]).right
    (by decide))

/-- Claim C2: when the previous file is absent, every record of the current
snapshot is returned unchanged (first-run rule). -/
theorem compare_with_previous_first_run (current : List Record) :
    compare_with_previous current none = current := rfl

/-- Claim C6: comparing a snapshot against a previous snapshot with
identical content yields no new records. -/
theorem compare_with_previous_self (s : List Record) :
    compare_with_previous s (some (Except.ok s)) = [] := by
  show List.filter _ s = []
  rw [List.filter_eq_nil_iff]
  intro r hr
  simp [contains_titles_of_mem hr]

/-- Claim C10: when an internal error occurs while computing the diff (the
previous file cannot be read or parsed, or a required column such as `Title`
is missing), `compare_with_previous` returns the empty record sequence
instead of raising, so the error is reported as zero new items. -/
theorem compare_with_previous_error (current : List Record) (e : String) :
    compare_with_previous current (some (Except.error e)) = [] := rfl

/-!
Python string operations used by the previous-file lookup in `run_job`.
The built-in `String` primitives of Lean are abstract in the kernel, so the
operations are embedded structurally over the underlying character lists:
Python compares strings lexicographically by code point, `str.startswith`
and `str.endswith` test a prefix and a suffix, and `str.replace(old, new)`
rewrites every non-overlapping occurrence of `old` left to right.
-/

/-- Python `s < t` on strings: lexicographic comparison by code point. -/
def strLtB : List Char → List Char → Bool
  | _, [] => false
  | [], _ :: _ => true
  | a :: as, b :: bs => if a < b then true else if b < a then false else strLtB as bs

/-- Recursion core of Python `str.replace`, with fuel bounding the scan
length (the fuel is always instantiated with the length of the scanned
list, which the scan never exceeds). -/
def pyReplaceAux (pat rep : List Char) : Nat → List Char → List Char
  | _, [] => []
  | 0, s => s
  | fuel + 1, c :: cs =>
    if pat ≠ [] ∧ pat.isPrefixOf (c :: cs) then
      rep ++ pyReplaceAux pat rep fuel (cs.drop (pat.length - 1))
    else c :: pyReplaceAux pat rep fuel cs

/-- Python `s.replace(pat, rep)` for a non-empty pattern: every
non-overlapping occurrence of `pat` in `s` is rewritten to `rep`, scanning
left to right.  (Both call sites in the source use a non-empty pattern.) -/
def pyReplace (s pat rep : String) : String :=
  ⟨pyReplaceAux pat.data rep.data s.data.length s.data⟩

/-- Python `s.startswith(pre)`. -/
def strStartsWith (s pre : String) : Bool := pre.data.isPrefixOf s.data

/-- Python `s.endswith(suf)`. -/
def strEndsWithB (s suf : String) : Bool := suf.data.isSuffixOf s.data

/-- `file.replace(f"{category}_{filter_name}_", "").replace(".csv", "")`:
the timestamp string the lookup loop extracts from a candidate file name
(`adb-workflow.py` lines 176-177 and 220-221). -/
def fileTs (pre f : String) : String := pyReplace (pyReplace f pre "") ".csv" ""

/-- The condition of `adb-workflow.py` line 175/219: the file starts with
the lineage's name pattern, ends in `.csv`, and is not the file just written
by the current run. -/
def isCandidate (pre base f : String) : Bool :=
  strStartsWith f pre && strEndsWithB f ".csv" && f != base

/-- One iteration of the previous-file lookup loop (lines 174-178/218-222):
a candidate file replaces the current best when there is no best yet or its
extracted timestamp string compares greater. -/
def pickPrevious (pre base : String) (previous : Option String) (file : String) :
    Option String :=
  if isCandidate pre base file then
    match previous with
    | none => some file
    | some p =>
        if strLtB (fileTs pre p).data (fileTs pre file).data then some file else previous
  else previous

/-- The whole previous-file lookup: fold the loop body over the directory
listing, starting from `previous_file = None`. -/
def find_previous (files : List String) (pre base : String) : Option String :=
  files.foldl (pickPrevious pre base) none

theorem strLtB_irrefl (u : List Char) : strLtB u u = false := by
  induction u with
  | nil => rfl
  | cons a as ih => simp [strLtB, ih]

theorem strLtB_trans (u : List Char) :
    ∀ v w, strLtB u v = true → strLtB v w = true → strLtB u w = true := by
  induction u with
  | nil =>
    intro v w huv hvw
    cases v with
    | nil => simp [strLtB] at huv
    | cons b bs =>
      cases w with
      | nil => simp [strLtB] at hvw
      | cons c cs => simp [strLtB]
  | cons a as ih =>
    intro v w huv hvw
    cases v with
    | nil => simp [strLtB] at huv
    | cons b bs =>
      cases w with
      | nil => simp [strLtB] at hvw
      | cons c cs =>
        simp only [strLtB] at huv hvw ⊢
        by_cases hab : a < b
        · by_cases hbc : b < c
          · simp [lt_trans hab hbc]
          · rw [if_neg hbc] at hvw
            by_cases hcb : c < b
            · rw [if_pos hcb] at hvw; exact absurd hvw (by simp)
            · have hbc2 : b = c := le_antisymm (not_lt.mp hcb) (not_lt.mp hbc)
              subst hbc2
              simp [hab]
        · rw [if_neg hab] at huv
          by_cases hba : b < a
          · rw [if_pos hba] at huv; exact absurd huv (by simp)
          · have hab2 : a = b := le_antisymm (not_lt.mp hba) (not_lt.mp hab)
            subst hab2
            rw [if_neg hba] at huv
            by_cases hac : a < c
            · simp [hac]
            · rw [if_neg hac] at hvw ⊢
              by_cases hca : c < a
              · rw [if_pos hca] at hvw; exact absurd hvw (by simp)
              · rw [if_neg hca] at hvw ⊢
                exact ih bs cs huv hvw

theorem strLtB_eq_of_not_lt (u : List Char) :
    ∀ v, strLtB u v = false → strLtB v u = false → u = v := by
  induction u with
  | nil =>
    intro v huv _
    cases v with
    | nil => rfl
    | cons b bs => simp [strLtB] at huv
  | cons a as ih =>
    intro v huv hvu
    cases v with
    | nil => simp [strLtB] at hvu
    | cons b bs =>
      simp only [strLtB] at huv hvu
      by_cases hab : a < b
      · rw [if_pos hab] at huv; exact absurd huv (by simp)
      · rw [if_neg hab] at huv
        by_cases hba : b < a
        · rw [if_pos hba] at hvu; exact absurd hvu (by simp)
        · rw [if_neg hba] at huv
          rw [if_neg hba, if_neg hab] at hvu
          have hab2 : a = b := le_antisymm (not_lt.mp hba) (not_lt.mp hab)
          have htail : as = bs := ih bs huv hvu
          rw [hab2, htail]

theorem strLtB_le_trans {u v w : List Char} (h1 : strLtB v u = false)
    (h2 : strLtB w v = false) : strLtB w u = false := by
  by_contra hcon
  rw [Bool.not_eq_false] at hcon
  cases huv : strLtB u v with
  | true =>
    have hwv := strLtB_trans w u v hcon huv
    rw [hwv] at h2
    exact absurd h2 (by simp)
  | false =>
    have hequ : u = v := strLtB_eq_of_not_lt u v huv h1
    rw [← hequ] at h2
    rw [hcon] at h2
    exact absurd h2 (by simp)

theorem pickPrevious_foldl_acc (pre base : String) :
    ∀ (fs : List String) (b c : String),
      fs.foldl (pickPrevious pre base) (some b) = some c →
      strLtB (fileTs pre c).data (fileTs pre b).data = false := by
  intro fs
  induction fs with
  | nil =>
    intro b c h
    have hbc : b = c := by simpa using h
    rw [hbc]
    exact strLtB_irrefl _
  | cons f fs ih =>
    intro b c h
    simp only [List.foldl_cons] at h
    by_cases hc : isCandidate pre base f = true
    · by_cases hlt : strLtB (fileTs pre b).data (fileTs pre f).data = true
      · have hstep : pickPrevious pre base (some b) f = some f := by
          simp [pickPrevious, hc, hlt]
        rw [hstep] at h
        have h1 := ih f c h
        by_contra hcb
        rw [Bool.not_eq_false] at hcb
        have h2 := strLtB_trans _ _ _ hcb hlt
        rw [h2] at h1
        exact absurd h1 (by simp)
      · have hstep : pickPrevious pre base (some b) f = some b := by
          simp [pickPrevious, hc, hlt]
        rw [hstep] at h
        exact ih b c h
    · have hstep : pickPrevious pre base (some b) f = some b := by
        simp [pickPrevious, hc]
      rw [hstep] at h
      exact ih b c h

theorem pickPrevious_foldl_none (pre base : String) :
    ∀ (fs : List String) (b : Option String),
      fs.foldl (pickPrevious pre base) b = none →
      b = none ∧ ∀ f ∈ fs, isCandidate pre base f = false := by
  intro fs
  induction fs with
  | nil =>
    intro b h
    exact ⟨h, by simp⟩
  | cons f fs ih =>
    intro b h
    simp only [List.foldl_cons] at h
    obtain ⟨hacc, hall⟩ := ih (pickPrevious pre base b f) h
    by_cases hc : isCandidate pre base f = true
    · exfalso
      cases b with
      | none => simp [pickPrevious, hc] at hacc
      | some p =>
        simp only [pickPrevious, hc, if_true] at hacc
        split at hacc <;> simp_all
    · have hb : b = none := by simpa [pickPrevious, hc] using hacc
      refine ⟨hb, ?_⟩
      intro g hg
      rcases List.mem_cons.mp hg with hgf | hgtail
      · rw [hgf]
        exact Bool.not_eq_true _ |>.mp hc
      · exact hall g hgtail

theorem pickPrevious_foldl_mem (pre base : String) :
    ∀ (fs : List String) (b : Option String) (c : String),
      fs.foldl (pickPrevious pre base) b = some c →
      (c ∈ fs ∧ isCandidate pre base c = true) ∨ b = some c := by
  intro fs
  induction fs with
  | nil =>
    intro b c h
    exact Or.inr h
  | cons f fs ih =>
    intro b c h
    simp only [List.foldl_cons] at h
    rcases ih (pickPrevious pre base b f) c h with ⟨hmem, hcand⟩ | hacc
    · exact Or.inl ⟨List.mem_cons_of_mem f hmem, hcand⟩
    · by_cases hc : isCandidate pre base f = true
      · cases b with
        | none =>
          have hfc : f = c := by simpa [pickPrevious, hc] using hacc
          exact Or.inl ⟨by rw [← hfc]; exact List.mem_cons_self f fs, by rw [← hfc]; exact hc⟩
        | some p =>
          simp only [pickPrevious, hc, if_true] at hacc
          split at hacc
          · have hfc : f = c := by simpa using hacc
            exact Or.inl ⟨by rw [← hfc]; exact List.mem_cons_self f fs, by rw [← hfc]; exact hc⟩
          · exact Or.inr hacc
      · have hb : b = some c := by simpa [pickPrevious, hc] using hacc
        exact Or.inr hb

theorem pickPrevious_foldl_dom (pre base : String) :
    ∀ (fs : List String) (b : Option String) (c : String),
      fs.foldl (pickPrevious pre base) b = some c →
      ∀ g ∈ fs, isCandidate pre base g = true →
        strLtB (fileTs pre c).data (fileTs pre g).data = false := by
  intro fs
  induction fs with
  | nil =>
    intro b c _ g hg
    exact absurd hg (List.not_mem_nil g)
  | cons f fs ih =>
    intro b c h g hg hcand
    simp only [List.foldl_cons] at h
    rcases List.mem_cons.mp hg with hgf | hgtail
    · subst hgf
      cases b with
      | none =>
        have hstep : pickPrevious pre base none g = some g := by
          simp [pickPrevious, hcand]
        rw [hstep] at h
        exact pickPrevious_foldl_acc pre base fs g c h
      | some p =>
        by_cases hlt : strLtB (fileTs pre p).data (fileTs pre g).data = true
        · have hstep : pickPrevious pre base (some p) g = some g := by
            simp [pickPrevious, hcand, hlt]
          rw [hstep] at h
          exact pickPrevious_foldl_acc pre base fs g c h
        · have hstep : pickPrevious pre base (some p) g = some p := by
            simp [pickPrevious, hcand, hlt]
          rw [hstep] at h
          have hpc := pickPrevious_foldl_acc pre base fs p c h
          exact strLtB_le_trans (Bool.not_eq_true _ |>.mp hlt) hpc
    · exact ih (pickPrevious pre base b f) c h g hgtail hcand

/-- Claim C3 counterexample: the lookup loop selects the file with the
greatest extracted timestamp among all matching files other than the one
just written — not the greatest timestamp strictly below the current run's
timestamp.  With persisted snapshots at `20240101_000000` and
`20240105_000000` and the current run at `20240103_000000`, the loop picks
the `20240105_000000` snapshot, whose timestamp is strictly greater than
the current run's, instead of the `20240101_000000` one. -/
theorem find_previous_picks_future_snapshot :
    find_previous
        ["tenders_f_20240101_000000.csv", "tenders_f_20240105_000000.csv",
         "tenders_f_20240103_000000.csv"] "tenders_f_" "tenders_f_20240103_000000.csv" =
      some "tenders_f_20240105_000000.csv" ∧
    strLtB "20240103_000000".data
        (fileTs "tenders_f_" "tenders_f_20240105_000000.csv").data = true := by
  decide

/-- Claim C3 (amended): the previous snapshot resolved for comparison is the
matching file (right name pattern, `.csv` suffix, not the file just written)
whose extracted timestamp string is lexicographically greatest among all
matching files — independent of the directory listing order, since the
unique strict maximum is selected from any listing containing it; when no
matching file exists the lookup yields none.  When every other snapshot's
timestamp is below the current run's (monotonic timestamps), this is the
greatest timestamp strictly less than the current run's: with snapshots at
T1 < T2 < T3 and the current run at T3, the T2 snapshot is selected, and
none on the first run. -/
theorem find_previous_resolution :
    (∀ (files : List String) (pre base c : String),
        c ∈ files → isCandidate pre base c = true →
        (∀ g ∈ files, isCandidate pre base g = true → g ≠ c →
          strLtB (fileTs pre g).data (fileTs pre c).data = true) →
        find_previous files pre base = some c) ∧
    (∀ (files : List String) (pre base : String),
        (∀ f ∈ files, isCandidate pre base f = false) →
        find_previous files pre base = none) ∧
    (find_previous
        ["tenders_f_20240101_000000.csv", "tenders_f_20240102_000000.csv",
         "tenders_f_20240103_000000.csv"] "tenders_f_" "tenders_f_20240103_000000.csv" =
      some "tenders_f_20240102_000000.csv") ∧
    (find_previous ["tenders_f_20240101_000000.csv"] "tenders_f_"
        "tenders_f_20240101_000000.csv" = none) := by
  refine ⟨?_, ?_, by decide, by decide⟩
  · intro files pre base c hmem hcand hmax
    cases hres : find_previous files pre base with
    | none =>
      obtain ⟨-, hall⟩ := pickPrevious_foldl_none pre base files none hres
      rw [hall c hmem] at hcand
      exact absurd hcand (by simp)
    | some c2 =>
      rcases pickPrevious_foldl_mem pre base files none c2 hres with ⟨hc2mem, hc2cand⟩ | hb
      · have hle := pickPrevious_foldl_dom pre base files none c2 hres c hmem hcand
        by_cases hcc : c2 = c
        · rw [hcc]
        · have hgt := hmax c2 hc2mem hc2cand hcc
          rw [hgt] at hle
          exact absurd hle (by simp)
      · exact absurd hb (by simp)
  · intro files pre base hall
    cases hres : find_previous files pre base with
    | none => rfl
    | some c =>
      rcases pickPrevious_foldl_mem pre base files none c hres with ⟨hmem, hcand⟩ | hb
      · rw [hall c hmem] at hcand
        exact absurd hcand (by simp)
      · exact absurd hb (by simp)

/-- Closed witness for the amended C3 at a concrete directory listing. -/
theorem find_previous_resolution_witness :
    find_previous
        ["projects_p_20240101_090000.csv", "projects_p_20240102_090000.csv",
         "projects_p_20240103_090000.csv"] "projects_p_" "projects_p_20240103_090000.csv" =
      some "projects_p_20240102_090000.csv" :=
  find_previous_resolution.1
    ["projects_p_20240101_090000.csv", "projects_p_20240102_090000.csv",
     "projects_p_20240103_090000.csv"] "projects_p_" "projects_p_20240103_090000.csv"
    "projects_p_20240102_090000.csv" (by decide) (by decide) (by decide)

/-!
Run-level model: `run_job` (`adb-workflow.py` lines 132-257) together with
the configuration loading, the scraper's error handling, and the event
trace of one run (browser acquisition, notification dispatch, browser
release).  The output directory is an association list from file name to
the rows stored in that CSV file (the constant `output_dir` path component
is dropped; file names are compared exactly as the source does).
-/

/-- The two search categories processed by a run. -/
inductive Category where
  | tenders
  | projects
deriving DecidableEq, Repr

/-- The word the source uses for the category in file names and messages. -/
def Category.label : Category → String
  | Category.tenders => "tenders"
  | Category.projects => "projects"

/-- One entry of `search_filters` in `config.json`. -/
structure FilterSpec where
  name : String
  country : String
  status : String
  sector : String
deriving DecidableEq, Repr

/-- The configuration fields the workflow reads. -/
structure Config where
  emailEnabled : Bool
  tenders : List FilterSpec
  projects : List FilterSpec
  scheduleFrequency : String
  scheduleTime : String
  outputDir : String
deriving DecidableEq, Repr

/-- The hard-coded default configuration of `load_config` (lines 37-69). -/
def defaultConfig : Config :=
  { emailEnabled := false
  , tenders := [⟨"india_water_tenders", "India", "Active",
      "Water and other urban infrastructure and services"⟩]
  , projects := [⟨"india_transport_projects", "India", "Proposed", "Transport"⟩]
  , scheduleFrequency := "daily"
  , scheduleTime := "09:00"
  , outputDir := "output" }

/-- Embedding of `load_config()` (lines 28-69).  The argument is the state
of `config.json` at the moment of the call: `some c` when the file exists
and parses to `c`, `none` when opening or parsing raises, in which case the
`except` clause returns the default configuration. -/
def load_config (configFile : Option Config) : Config :=
  match configFile with
  | some c => c
  | none => defaultConfig

/-- Embedding of `ADBScraper.search_tenders` (`adb_scraper.py` lines
43-96).  The argument is the outcome of the browser interaction: rows on
success, or the text of a raised exception, which the `except` clause at
lines 94-96 catches, returning an empty DataFrame. -/
def search_tenders (fetch : Except String (List Record)) : List Record :=
  match fetch with
  | Except.ok rs => rs
  | Except.error _ => []

/-- Embedding of `ADBScraper.search_projects` (lines 179-230), whose
`except` clause at lines 228-230 likewise returns an empty DataFrame. -/
def search_projects (fetch : Except String (List Record)) : List Record :=
  match fetch with
  | Except.ok rs => rs
  | Except.error _ => []

/-- A `send_email_notification(subject, body, attachments)` call. -/
structure Notification where
  subject : String
  body : String
  attachments : List String
deriving DecidableEq, Repr

/-- Externally visible events of one run: the browser session constructed
at line 144, each Notifier call, and the `finally` cleanup at line 257. -/
inductive Event where
  | acquire
  | send (msg : Notification)
  | release
deriving DecidableEq, Repr

def successSubject : String := "ADB Monitoring Update - New Items Found"

def failureSubject : String := "ADB Monitoring Error"

/-- The single bundled notification of lines 241-245. -/
def successNotification (body : List String) (attachments : List String) : Notification :=
  { subject := successSubject
  , body := String.intercalate "\n" body
  , attachments := attachments }

/-- The failure notification of lines 251-254 (no attachments). -/
def failureNotification (e : String) : Notification :=
  { subject := failureSubject
  , body := "An error occurred while running the ADB monitoring job:\n\n" ++ e
  , attachments := [] }

/-- Embedding of `send_email_notification` (lines 71-108): the function
re-loads the configuration from the file state at call time and transmits
only when the freshly loaded `email.enabled` flag is set (SMTP errors are
caught and logged).  The result records whether a transmission is
attempted. -/
def send_email_notification (configFile : Option Config) (_msg : Notification) : Bool :=
  (load_config configFile).emailEnabled

/-- The mutable state of one `run_job` call: the output directory contents,
the accumulated `notification_body` lines, the accumulated attachment
list, and the `new_items_found` flag. -/
structure RunState where
  store : List (String × List Record)
  notificationBody : List String
  attachments : List String
  newItemsFound : Bool
deriving DecidableEq, Repr

/-- Reading a CSV file of the output directory for `compare_with_previous`:
`none` when the file does not exist, otherwise its parsed rows. -/
def readStore (store : List (String × List Record)) (f : String) :
    Option (Except String (List Record)) :=
  match store.lookup f with
  | some rs => some (Except.ok rs)
  | none => none

/-- `f"{category}_{filter_name}_"`, the name pattern of one lineage. -/
def filePre (c : Category) (name : String) : String :=
  c.label ++ "_" ++ name ++ "_"

/-- `f"{category}_{filter_name}_{timestamp}.csv"`, the file written for the
current snapshot. -/
def snapshotFile (c : Category) (name ts : String) : String :=
  filePre c name ++ ts ++ ".csv"

/-- `f"Found {len(new_items)} new {category} for {filter_name}:"`. -/
def foundHeader (c : Category) (n : Nat) (name : String) : String :=
  "Found " ++ toString n ++ " new " ++ c.label ++ " for " ++ name ++ ":"

/-- `f"Found {len(results)} {category} for {filter_name} (first run)"`. -/
def firstRunHeader (c : Category) (n : Nat) (name : String) : String :=
  "Found " ++ toString n ++ " " ++ c.label ++ " for " ++ name ++ " (first run)"

/-- The `scraper.search_tenders(filters)` / `scraper.search_projects(filters)`
call of the lineage's loop iteration (lines 164 and 208). -/
def lineage_results (fetch : Category → FilterSpec → Except String (List Record))
    (lineage : Category × FilterSpec) : List Record :=
  match lineage.1 with
  | Category.tenders => search_tenders (fetch lineage.1 lineage.2)
  | Category.projects => search_projects (fetch lineage.1 lineage.2)

/-- One loop iteration of `run_job` over a FilterSpec (lines 152-193 for
tenders, lines 196-237 for projects): fetch the current rows; when they are
empty skip the lineage entirely; otherwise write the snapshot file, record
it as an attachment, resolve the previous file from the directory listing,
and either diff against it (appending the findings and raising the
`new_items_found` flag when the diff is non-empty) or report a first
run. -/
def processLineage (ts : String)
    (fetch : Category → FilterSpec → Except String (List Record))
    (st : RunState) (lineage : Category × FilterSpec) : RunState :=
  let results := lineage_results fetch lineage
  if results.isEmpty then st
  else
    let base := snapshotFile lineage.1 lineage.2.name ts
    let store1 := st.store ++ [(base, results)]
    let att1 := st.attachments ++ [base]
    match find_previous (store1.map Prod.fst) (filePre lineage.1 lineage.2.name) base with
    | some pf =>
        let newItems := compare_with_previous results (readStore store1 pf)
        if newItems.isEmpty then
          { st with store := store1, attachments := att1 }
        else
          { store := store1
          , notificationBody := st.notificationBody ++
              [foundHeader lineage.1 newItems.length lineage.2.name] ++
              newItems.map (fun r => "- " ++ r.title) ++ [""]
          , attachments := att1
          , newItemsFound := true }
    | none =>
        { store := store1
        , notificationBody := st.notificationBody ++
            [firstRunHeader lineage.1 results.length lineage.2.name] ++ [""]
        , attachments := att1
        , newItemsFound := true }

/-- The lineages one run processes, in source order: every tender
FilterSpec, then every project FilterSpec. -/
def configLineages (config : Config) : List (Category × FilterSpec) :=
  config.tenders.map (fun f => (Category.tenders, f)) ++
    config.projects.map (fun f => (Category.projects, f))

/-- Embedding of `run_job()` (lines 132-257).  `configFile` is the state of
`config.json` when the run starts (re-read at line 134); `fetch` gives the
browser outcome per lineage; `escape` is `none` when no exception escapes
to the `except` clause at line 249 and `some (k, e)` when an exception with
text `e` escapes after `k` lineages were processed (a file-system or setup
failure; scraper errors are caught inside the scraper and never escape);
`store0` is the output directory at run start; `ts` the run's timestamp.
The scraper is constructed before the `try` block, the success path sends
the bundled notification exactly when `new_items_found` is set, the
`except` clause sends one failure notification, and the `finally` clause
releases the browser on every path. -/
def run_job (configFile : Option Config)
    (fetch : Category → FilterSpec → Except String (List Record))
    (escape : Option (Nat × String)) (store0 : List (String × List Record))
    (ts : String) : RunState × List Event :=
  let config := load_config configFile
  let st0 : RunState := ⟨store0, [], [], false⟩
  match escape with
  | some (k, e) =>
      let st := ((configLineages config).take k).foldl (processLineage ts fetch) st0
      (st, [Event.acquire, Event.send (failureNotification e), Event.release])
  | none =>
      let st := (configLineages config).foldl (processLineage ts fetch) st0
      (st, Event.acquire ::
        ((if st.newItemsFound then
            [Event.send (successNotification st.notificationBody st.attachments)]
          else []) ++ [Event.release]))

/-- `True` exactly for a Notifier call carrying the failure subject. -/
def isFailureSend : Event → Bool
  | Event.send msg => msg.subject == failureSubject
  | _ => false

theorem run_trace_shape (st : RunState) :
    ∃ mids,
      Event.acquire ::
          ((if st.newItemsFound then
              [Event.send (successNotification st.notificationBody st.attachments)]
            else []) ++ [Event.release]) =
        Event.acquire :: mids ++ [Event.release] ∧
      Event.release ∉ mids ∧ Event.acquire ∉ mids := by
  cases h : st.newItemsFound
  · exact ⟨[], by simp [h], by simp, by simp⟩
  · exact ⟨[Event.send (successNotification st.notificationBody st.attachments)],
      by simp [h], by simp, by simp⟩

/-- Claim C8: on every execution path — run success and run failure alike —
the browser session acquired at run start is released exactly once, as the
final event before the run returns control to the scheduling loop: the
trace is `acquire`, then notification sends only, then `release` (the
`finally` clause at lines 255-257; `ADBScraper.close` catches its own
errors at lines 441-445, so the release itself cannot raise). -/
theorem run_job_releases_browser (configFile : Option Config)
    (fetch : Category → FilterSpec → Except String (List Record))
    (escape : Option (Nat × String)) (store0 : List (String × List Record))
    (ts : String) :
    ∃ mids, (run_job configFile fetch escape store0 ts).2 =
        Event.acquire :: mids ++ [Event.release] ∧
      Event.release ∉ mids ∧ Event.acquire ∉ mids := by
  cases escape with
  | some ke =>
    obtain ⟨k, e⟩ := ke
    exact ⟨[Event.send (failureNotification e)], rfl, by simp, by simp⟩
  | none =>
    simp only [run_job]
    exact run_trace_shape ((configLineages (load_config configFile)).foldl
      (processLineage ts fetch) ⟨store0, [], [], false⟩)

theorem processLineage_flag_iff_body (ts : String)
    (fetch : Category → FilterSpec → Except String (List Record))
    (lineage : Category × FilterSpec) (st : RunState)
    (h : st.newItemsFound = true ↔ st.notificationBody ≠ []) :
    ((processLineage ts fetch st lineage).newItemsFound = true ↔
      (processLineage ts fetch st lineage).notificationBody ≠ []) := by
  simp only [processLineage]
  split
  · exact h
  · split
    · split
      · simpa using h
      · simp
    · simp

theorem foldl_flag_iff_body (ts : String)
    (fetch : Category → FilterSpec → Except String (List Record)) :
    ∀ (ls : List (Category × FilterSpec)) (st : RunState),
      (st.newItemsFound = true ↔ st.notificationBody ≠ []) →
      ((ls.foldl (processLineage ts fetch) st).newItemsFound = true ↔
        (ls.foldl (processLineage ts fetch) st).notificationBody ≠ []) := by
  intro ls
  induction ls with
  | nil => intro st h; exact h
  | cons l ls ih =>
    intro st h
    simp only [List.foldl_cons]
    exact ih _ (processLineage_flag_iff_body ts fetch l st h)

def recX : Record := ⟨"X", []⟩

def recY : Record := ⟨"Y", []⟩

def filterF : FilterSpec := ⟨"f", "India", "Active", "Water"⟩

def cfgF : Config := ⟨true, [filterF], [], "daily", "09:00", "output"⟩

def fetchXY : Category → FilterSpec → Except String (List Record) :=
  fun _ _ => Except.ok [recX, recY]

def storeXY : List (String × List Record) :=
  [("tenders_f_20240101_000000.csv", [recX, recY])]

/-- Claim C4: in every completed run, after all FilterSpecs of both
categories are processed, exactly one Notifier call is dispatched, bundling
the whole accumulated digest and every attachment, when at least one
lineage contributed findings — the digest is non-empty exactly when the
`new_items_found` flag was raised by some lineage — and no Notifier call is
dispatched when no lineage contributed; in particular, a run whose only
lineage is unchanged relative to its previous snapshot (same Titles
`{"X","Y"}`) dispatches zero notifications. -/
theorem run_job_one_bundled_notification :
    (∀ (configFile : Option Config)
        (fetch : Category → FilterSpec → Except String (List Record))
        (store0 : List (String × List Record)) (ts : String),
        (run_job configFile fetch none store0 ts).2 =
          Event.acquire ::
            ((if (run_job configFile fetch none store0 ts).1.notificationBody = [] then []
              else [Event.send (successNotification
                  (run_job configFile fetch none store0 ts).1.notificationBody
                  (run_job configFile fetch none store0 ts).1.attachments)]) ++
              [Event.release])) ∧
    (run_job (some cfgF) fetchXY none storeXY "20240102_000000").2 =
      [Event.acquire, Event.release] := by
  constructor
  · intro configFile fetch store0 ts
    have hiv := foldl_flag_iff_body ts fetch (configLineages (load_config configFile))
      ⟨store0, [], [], false⟩ (by simp)
    simp only [run_job]
    cases hflag : ((configLineages (load_config configFile)).foldl
        (processLineage ts fetch) ⟨store0, [], [], false⟩).newItemsFound with
    | false =>
      have hbody : ((configLineages (load_config configFile)).foldl
          (processLineage ts fetch) ⟨store0, [], [], false⟩).notificationBody = [] := by
        by_contra hb
        have := hiv.mpr hb
        rw [hflag] at this
        exact absurd this (by simp)
      simp [hflag, hbody]
    | true =>
      have hbody := hiv.mp hflag
      simp [hflag, hbody]
  · decide

def filterN (n : String) : FilterSpec := ⟨n, "India", "Active", "Water"⟩

def cfg3 : Config :=
  ⟨true, [filterN "f1", filterN "f2", filterN "f3"], [], "daily", "09:00", "output"⟩

def fetch3 : Category → FilterSpec → Except String (List Record) :=
  fun _ f =>
    if f.name = "f2" then Except.error "DataSource raised in lineage 2"
    else Except.ok [⟨f.name, []⟩]

/-- Claim C5 counterexample: with three configured tender lineages of which
the second's DataSource interaction raises, the run dispatches zero failure
notifications (the claim requires exactly one containing the error
description) and does not abort: the third lineage's snapshot is persisted
after the failing second one (the claim requires the run to abort at
lineage 2).  The error is caught inside `search_tenders` (`adb_scraper.py`
lines 94-96) and is indistinguishable from "zero matches". -/
theorem run_job_datasource_error_swallowed :
    (run_job (some cfg3) fetch3 none [] "20240101_000000").2.countP isFailureSend = 0 ∧
    (run_job (some cfg3) fetch3 none [] "20240101_000000").1.store.map Prod.fst =
      ["tenders_f1_20240101_000000.csv", "tenders_f3_20240101_000000.csv"] := by
  decide

theorem processLineage_store_append (ts : String)
    (fetch : Category → FilterSpec → Except String (List Record))
    (st : RunState) (lineage : Category × FilterSpec) :
    ∃ t, (processLineage ts fetch st lineage).store = st.store ++ t := by
  simp only [processLineage]
  split
  · exact ⟨[], (List.append_nil _).symm⟩
  · split
    · split
      · exact ⟨_, rfl⟩
      · exact ⟨_, rfl⟩
    · exact ⟨_, rfl⟩

theorem foldl_store_append (ts : String)
    (fetch : Category → FilterSpec → Except String (List Record)) :
    ∀ (ls : List (Category × FilterSpec)) (st : RunState),
      ∃ t, (ls.foldl (processLineage ts fetch) st).store = st.store ++ t := by
  intro ls
  induction ls with
  | nil => intro st; exact ⟨[], (List.append_nil _).symm⟩
  | cons l ls ih =>
    intro st
    obtain ⟨t1, h1⟩ := processLineage_store_append ts fetch st l
    obtain ⟨t2, h2⟩ := ih (processLineage ts fetch st l)
    refine ⟨t1 ++ t2, ?_⟩
    rw [List.foldl_cons, h2, h1, List.append_assoc]

theorem isFailureSend_success_eq_false (b a : List String) :
    isFailureSend (Event.send (successNotification b a)) = false := rfl

/-- Claim C5 (amended): a DataSource error inside one lineage is caught by
the scraper's own `except` clause and surfaces as an empty result set, so
the lineage is a no-op on the run state — the run does not abort, later
lineages still execute, and everything persisted before (including earlier
lineages' snapshots) remains persisted; no failure notification is
dispatched for such an error.  The single failure notification and the
abort occur only when an exception escapes to `run_job`'s own handler, and
in that case too the already-persisted snapshots survive and the trace still
ends with the browser release, so the scheduling loop survives. -/
theorem run_job_datasource_error_amended :
    (∀ (ts : String) (fetch : Category → FilterSpec → Except String (List Record))
        (st : RunState) (cat : Category) (flt : FilterSpec) (e : String),
        fetch cat flt = Except.error e →
        processLineage ts fetch st (cat, flt) = st) ∧
    (∀ (configFile : Option Config)
        (fetch : Category → FilterSpec → Except String (List Record))
        (escape : Option (Nat × String)) (store0 : List (String × List Record))
        (ts : String),
        ∃ tail, (run_job configFile fetch escape store0 ts).1.store = store0 ++ tail) ∧
    (∀ (configFile : Option Config)
        (fetch : Category → FilterSpec → Except String (List Record))
        (store0 : List (String × List Record)) (ts : String),
        (run_job configFile fetch none store0 ts).2.countP isFailureSend = 0) ∧
    (∀ (configFile : Option Config)
        (fetch : Category → FilterSpec → Except String (List Record))
        (k : Nat) (e : String) (store0 : List (String × List Record)) (ts : String),
        (run_job configFile fetch (some (k, e)) store0 ts).2 =
          [Event.acquire, Event.send (failureNotification e), Event.release]) := by
  refine ⟨?_, ?_, ?_, ?_⟩
  · intro ts fetch st cat flt e h
    cases cat <;> simp [processLineage, lineage_results, search_tenders, search_projects, h]
  · intro configFile fetch escape store0 ts
    cases escape with
    | some ke =>
      obtain ⟨k, e⟩ := ke
      simp only [run_job]
      exact foldl_store_append ts fetch _ ⟨store0, [], [], false⟩
    | none =>
      simp only [run_job]
      exact foldl_store_append ts fetch _ ⟨store0, [], [], false⟩
  · intro configFile fetch store0 ts
    simp only [run_job]
    cases hflag : ((configLineages (load_config configFile)).foldl
        (processLineage ts fetch) ⟨store0, [], [], false⟩).newItemsFound with
    | false => simp [hflag, isFailureSend]
    | true =>
      simp [hflag, isFailureSend, successNotification, successSubject, failureSubject]
  · intro configFile fetch k e store0 ts
    rfl

/-- Closed witness for the amended C5: the erroring second lineage of the
counterexample configuration leaves the run state untouched. -/
theorem run_job_datasource_error_amended_witness :
    fetch3 Category.tenders (filterN "f2") =
      Except.error "DataSource raised in lineage 2" ∧
    processLineage "20240101_000000" fetch3 ⟨[], [], [], false⟩
        (Category.tenders, filterN "f2") = ⟨[], [], [], false⟩ :=
  ⟨rfl,
    run_job_datasource_error_amended.1 "20240101_000000" fetch3 ⟨[], [], [], false⟩
      Category.tenders (filterN "f2") "DataSource raised in lineage 2" rfl⟩

def fetchEmpty : Category → FilterSpec → Except String (List Record) :=
  fun _ _ => Except.ok []

/-- Claim C7 counterexample: a configured FilterSpec whose fetch returns an
empty snapshot (legitimately zero matches, or a swallowed scraper error) is
skipped entirely by the `if not results.empty` guard (lines 166/210): the
snapshot is not persisted — the output directory stays empty, no timestamped
file is written — and the ChangeDetector is never run, although the claim
requires both for every configured FilterSpec. -/
theorem run_job_skips_empty_snapshot :
    (run_job (some cfgF) fetchEmpty none [] "20240101_000000").1 =
      ⟨[], [], [], false⟩ := by
  decide

/-- Claim C7 (amended): for every configured FilterSpec whose fetched
snapshot is non-empty, the snapshot is persisted as a new timestamped file
appended to the store (never overwriting earlier files) and recorded as an
attachment, and the ChangeDetector is run against the previous snapshot
resolved from the directory listing: the `new_items_found` flag after the
lineage equals its old value or-ed with the non-emptiness of
`compare_with_previous` against the resolved previous file (a first run
counting as new items).  FilterSpecs whose fetched snapshot is empty are
skipped entirely: not persisted and not compared. -/
theorem processLineage_persists_and_diffs (ts : String)
    (fetch : Category → FilterSpec → Except String (List Record))
    (st : RunState) (cat : Category) (flt : FilterSpec)
    (h : lineage_results fetch (cat, flt) ≠ []) :
    (processLineage ts fetch st (cat, flt)).store =
      st.store ++ [(snapshotFile cat flt.name ts, lineage_results fetch (cat, flt))] ∧
    (processLineage ts fetch st (cat, flt)).attachments =
      st.attachments ++ [snapshotFile cat flt.name ts] ∧
    (processLineage ts fetch st (cat, flt)).newItemsFound =
      (st.newItemsFound ||
        (match find_previous
            ((st.store ++ [(snapshotFile cat flt.name ts,
                lineage_results fetch (cat, flt))]).map Prod.fst)
            (filePre cat flt.name) (snapshotFile cat flt.name ts) with
          | some pf =>
              !(compare_with_previous (lineage_results fetch (cat, flt))
                  (readStore (st.store ++ [(snapshotFile cat flt.name ts,
                      lineage_results fetch (cat, flt))]) pf)).isEmpty
          | none => true)) := by
  have hne : (lineage_results fetch (cat, flt)).isEmpty = false := by
    cases hl : lineage_results fetch (cat, flt) with
    | nil => exact absurd hl h
    | cons a as => rfl
  simp only [processLineage, hne, Bool.false_eq_true, if_false]
  split
  · split
    · refine ⟨rfl, rfl, ?_⟩
      rename_i pf heq hempty
      simp [hempty]
    · refine ⟨rfl, rfl, ?_⟩
      rename_i pf heq hempty
      simp [Bool.not_eq_true] at hempty
      simp [hempty]
  · exact ⟨rfl, rfl, by simp⟩

/-- Closed witness for the amended C7: one non-empty lineage on an empty
directory persists exactly its snapshot file. -/
theorem processLineage_persists_and_diffs_witness :
    lineage_results fetchXY (Category.tenders, filterF) ≠ [] ∧
    (processLineage "20240101_000000" fetchXY ⟨[], [], [], false⟩
        (Category.tenders, filterF)).store =
      ([] : List (String × List Record)) ++
        [(snapshotFile Category.tenders filterF.name "20240101_000000",
          lineage_results fetchXY (Category.tenders, filterF))] :=
  ⟨by decide,
    (processLineage_persists_and_diffs "20240101_000000" fetchXY ⟨[], [], [], false⟩
      Category.tenders filterF (by decide)).1⟩

def cfgNone : Config := ⟨true, [], [], "daily", "09:00", "output"⟩

def cfgDisabled : Config := ⟨false, [filterF], [], "daily", "09:00", "output"⟩

/-- Claim C9 counterexample: the configuration is not pinned at startup —
`run_job` calls `load_config()` itself (line 134) and `send_email_notification`
calls it again (line 73), so both consult the `config.json` content at call
time.  Concretely, the same run invocation behaves differently when the
file holds one tender FilterSpec versus an empty FilterSpec list (different
persisted snapshots), and the same notification call transmits or not
according to the `enabled` flag in the file at send time — under the claim,
a process started with the first configuration would keep using it for
every later run and notification even after the file changed. -/
theorem run_job_rereads_config :
    (run_job (some cfgF) fetchXY none [] "20240101_000000").1.store ≠
      (run_job (some cfgNone) fetchXY none [] "20240101_000000").1.store ∧
    send_email_notification (some cfgF) (failureNotification "e") ≠
      send_email_notification (some cfgDisabled) (failureNotification "e") := by
  decide

/-- Claim C9 (amended): the configuration is re-read from `config.json` on
every `run_job` call and every `send_email_notification` call; each call
depends on the file only through `load_config` applied to the file state at
that moment, with the hard-coded default configuration used whenever the
file is missing or unparsable.  Nothing retains the values loaded at
process startup. -/
theorem config_reloaded_each_call :
    (∀ (fsA fsB : Option Config)
        (fetch : Category → FilterSpec → Except String (List Record))
        (escape : Option (Nat × String)) (store0 : List (String × List Record))
        (ts : String),
        load_config fsA = load_config fsB →
        run_job fsA fetch escape store0 ts = run_job fsB fetch escape store0 ts) ∧
    (∀ (fsA fsB : Option Config) (msg : Notification),
        load_config fsA = load_config fsB →
        send_email_notification fsA msg = send_email_notification fsB msg) ∧
    load_config none = defaultConfig := by
  refine ⟨?_, ?_, rfl⟩
  · intro fsA fsB fetch escape store0 ts h
    unfold run_job
    rw [h]
  · intro fsA fsB msg h
    unfold send_email_notification
    rw [h]

/-- Closed witness for the amended C9: a missing file and a file holding
the default configuration give identical runs. -/
theorem config_reloaded_each_call_witness :
    load_config none = load_config (some defaultConfig) ∧
    run_job none fetchXY none [] "t" = run_job (some defaultConfig) fetchXY none [] "t" :=
  ⟨rfl, config_reloaded_each_call.1 none (some defaultConfig) fetchXY none [] "t" rfl⟩
